import Mathlib

/-
  Verification model of the chat-thread lifecycle and response-streaming
  engine of the Rag-Agent repository (src/backend/chat_service.py).

  Python strings are modelled as `List Char`; the wall clock is modelled by
  explicit `Nat` instants passed to the operations that read it; the two
  fallible external effects (the generation-adapter call and the durable
  history write) are modelled by explicit outcome parameters; Python dicts
  keyed by thread id are modelled as association lists.
-/

namespace RagAgent

/-- Python `str` values are modelled as lists of characters. -/
abbrev Str := List Char

/-! ## Text model: Python `str.split()` and the word-by-word streamer -/

/-- Model of Python `str.split()` with no arguments: split on runs of
whitespace, discarding empty tokens (chat_service.py line 150). -/
def pySplit : List Char → List (List Char)
  | [] => []
  | [c] => if c.isWhitespace then [] else [[c]]
  | c :: d :: rest =>
    if c.isWhitespace then
      pySplit (d :: rest)
    else if d.isWhitespace then
      [c] :: pySplit (d :: rest)
    else
      match pySplit (d :: rest) with
      | [] => [[c]]
      | w :: ws => (c :: w) :: ws

/-- Model of `word.endswith(('.', '!', '?'))` (chat_service.py line 153). -/
def endsSentence (w : List Char) : Bool :=
  match w.getLast? with
  | some c => c == '.' || c == '!' || c == '?'
  | none => false

/-- Model of the streaming loop of chat_service.py lines 151-154: each word
is yielded with a single trailing space, and a line-break chunk follows any
word that ends in sentence-terminal punctuation unless it is the last word
(the loop guard `i < len(words) - 1` holds exactly on non-final words).
The `asyncio.sleep` pacing carries no data and is not modelled. -/
def streamChunks : List (List Char) → List (List Char)
  | [] => []
  | [w] => [w ++ [' ']]
  | w :: x :: xs =>
    if endsSentence w then
      (w ++ [' ']) :: ['\n'] :: streamChunks (x :: xs)
    else
      (w ++ [' ']) :: streamChunks (x :: xs)

/-! ## Association-list model of Python dicts keyed by thread id -/

/-- Lookup in a dict modelled as an association list. -/
def getKey (k : Str) : List (Str × α) → Option α
  | [] => none
  | (k₁, v₁) :: rest => if k = k₁ then some v₁ else getKey k rest

/-- Dict assignment `d[k] = v`: overwrite the binding if present,
otherwise add it. -/
def setKey (k : Str) (v : α) : List (Str × α) → List (Str × α)
  | [] => [(k, v)]
  | (k₁, v₁) :: rest => if k = k₁ then (k, v) :: rest else (k₁, v₁) :: setKey k v rest

/-! ## Data model (models.py and the `ChatService` state of chat_service.py)

Timestamps are abstract instants (`Nat`); `datetime.now().isoformat()` is
modelled by passing the instants read from the clock as explicit arguments,
with clock monotonicity stated as a hypothesis where a claim needs it. -/

/-- models.py `ChatMessage` (role, content, timestamp). -/
structure ChatMessage where
  role : Str
  content : Str
  timestamp : Nat
  deriving DecidableEq, Repr

/-- The dictionary produced by pydantic's `msg.dict()` for a `ChatMessage`,
as written by `json.dump` into the durable record (chat_service.py line 209). -/
structure SerializedMessage where
  role : Str
  content : Str
  timestamp : Nat
  deriving DecidableEq, Repr

/-- `msg.dict()`: serialize one message (chat_service.py line 209). -/
def ChatMessage.dict (m : ChatMessage) : SerializedMessage :=
  ⟨m.role, m.content, m.timestamp⟩

/-- `ChatMessage(**msg)`: deserialize one message (chat_service.py line 178). -/
def chatMessageOfDict (d : SerializedMessage) : ChatMessage :=
  ⟨d.role, d.content, d.timestamp⟩

/-- One entry of `self.active_chats` (chat_service.py lines 80-85): the
conversation chain is an opaque external handle, modelled by a `Nat` id. -/
structure ChatThread where
  asset_id : Str
  conversation_chain : Nat
  history : List ChatMessage
  processing : Bool
  deriving DecidableEq, Repr

/-- The mutable state of a `ChatService` instance plus the `./chat_history`
directory: `active_chats`, `chat_locks` (a lock is `true` while held), and
the on-disk records keyed by thread id. -/
structure ChatServiceState where
  active_chats : List (Str × ChatThread)
  chat_locks : List (Str × Bool)
  chat_history_dir : List (Str × List SerializedMessage)
  deriving DecidableEq, Repr

/-! ## Operations of ChatService -/

/-- Outcome of the external `load_vectorstore` call of `create_chat`
(chat_service.py lines 54-77): the Chroma/LangChain construction either
yields a conversation-chain handle or raises (missing or unreadable index). -/
inductive LoadOutcome where
  | ok (chain : Nat)
  | err
  deriving DecidableEq, Repr

/-- Result of `create_chat`: the new thread id, or the configuration error
propagated from the failed index load. -/
inductive CreateResult where
  | ok (chat_thread_id : Str)
  | configError
  deriving DecidableEq, Repr

/-- chat_service.py lines 37-87. The fresh uuid and the outcome of the
external index load are parameters. The lock is created and registered
(line 51) before the load runs, so it is present even on the failure path;
the thread itself is registered (lines 80-85) only after a successful load. -/
def create_chat (s : ChatServiceState) (asset_id : Str) (newId : Str)
    (load : LoadOutcome) : CreateResult × ChatServiceState :=
  let s₁ : ChatServiceState :=
    { s with chat_locks := setKey newId false s.chat_locks }
  match load with
  | .err => (.configError, s₁)
  | .ok chain =>
    (.ok newId,
     { s₁ with active_chats :=
         setKey newId ⟨asset_id, chain, [], false⟩ s₁.active_chats })

/-- Update the thread stored under `id` in `active_chats`, if present
(models in-place mutation of the Python dict entry). -/
def updThread (s : ChatServiceState) (id : Str) (f : ChatThread → ChatThread) :
    ChatServiceState :=
  match getKey id s.active_chats with
  | none => s
  | some th => { s with active_chats := setKey id (f th) s.active_chats }

/-- chat_service.py lines 198-209: `_save_chat_history` overwrites the durable
record for `id` with the full serialized in-memory history. -/
def save_chat_history (s : ChatServiceState) (id : Str) : ChatServiceState :=
  match getKey id s.active_chats with
  | none => s
  | some th =>
    { s with chat_history_dir :=
        setKey id (th.history.map ChatMessage.dict) s.chat_history_dir }

/-- chat_service.py lines 157-160, the `finally` block: clear the
`processing` flag, then release the lock. -/
def finallyRelease (s : ChatServiceState) (id : Str) : ChatServiceState :=
  let s₁ := updThread s id (fun th => { th with processing := false })
  { s₁ with chat_locks := setKey id false s₁.chat_locks }

/-- Outcome of the external `conversation_chain.invoke` call
(chat_service.py lines 127-134): the answer string, or a raised adapter error. -/
inductive GenOutcome where
  | ok (answer : Str)
  | err
  deriving DecidableEq, Repr

/-- Outcome of the durable write inside `_save_chat_history` (the `open` /
`json.dump` at lines 208-209): success, or a raised persistence error.
Because `open(history_path, "w")` truncates any existing record before
`json.dump` writes, a failed write does not in general leave the record
intact: `err (some junk)` models a failure after the open, leaving the
record holding whatever partial content `junk` was written (possibly
nothing), while `err none` models a failure before the file was opened,
leaving the durable record unchanged. -/
inductive SaveOutcome where
  | ok
  | err (leftover : Option (List SerializedMessage))
  deriving DecidableEq, Repr

/-- How one `send_message` call exits, as seen by the caller. -/
inductive ExitKind where
  | notFound
  | busy
  | completed
  | genRaised
  | saveRaised
  deriving DecidableEq, Repr

/-- What the caller of `send_message` observes: the exit and the chunks
yielded to it, in order. -/
structure SendOutput where
  exit : ExitKind
  chunks : List Str
  deriving DecidableEq, Repr

/-- The advisory chunk of chat_service.py line 111 (the apostrophe is
written via its code point). -/
def busyMessage : Str :=
  "I".data ++ [Char.ofNat 39] ++ "m still processing your previous message. Please wait a moment.".data

/-- chat_service.py lines 89-160: one `send_message` call. `t₁` and `t₂` are
the instants read by the two `datetime.now()` calls (lines 119 and 140);
`gen` and `save` are the outcomes of the two fallible external effects.
Paths, in source order: unknown id raises (lines 100-101); a missing lock
entry is replaced by a fresh unheld lock (lines 104-107); a held lock yields
the single busy chunk and returns (lines 109-112); otherwise the lock is
taken, `processing` is set, the user message is appended, generation runs,
on success the assistant message is appended, the history is persisted and
the answer is streamed; the `finally` block always clears `processing` and
releases the lock on the acquired paths. -/
def send_message (s : ChatServiceState) (id : Str) (message : Str)
    (t₁ t₂ : Nat) (gen : GenOutcome) (save : SaveOutcome) :
    SendOutput × ChatServiceState :=
  match getKey id s.active_chats with
  | none => (⟨.notFound, []⟩, s)
  | some _ =>
    let s₀ : ChatServiceState :=
      match getKey id s.chat_locks with
      | some _ => s
      | none => { s with chat_locks := setKey id false s.chat_locks }
    let held : Bool := (getKey id s.chat_locks).getD false
    if held then
      (⟨.busy, [busyMessage]⟩, s₀)
    else
      let s₁ : ChatServiceState :=
        { s₀ with chat_locks := setKey id true s₀.chat_locks }
      let s₂ := updThread s₁ id (fun th => { th with processing := true })
      let userMsg : ChatMessage := (ChatMessage.mk "user".data message t₁)
      let s₃ := updThread s₂ id (fun th => { th with history := th.history ++ [userMsg] })
      match gen with
      | .err => (⟨.genRaised, []⟩, finallyRelease s₃ id)
      | .ok answer =>
        let assistantMsg : ChatMessage := ⟨"assistant".data, answer, t₂⟩
        let s₄ := updThread s₃ id
          (fun th => { th with history := th.history ++ [assistantMsg] })
        match save with
        | .err leftover =>
          let s₅ : ChatServiceState :=
            { s₄ with chat_history_dir :=
                match leftover with
                | none => s₄.chat_history_dir
                | some junk => setKey id junk s₄.chat_history_dir }
          (⟨.saveRaised, []⟩, finallyRelease s₅ id)
        | .ok =>
          let s₅ := save_chat_history s₄ id
          (⟨.completed, streamChunks (pySplit answer)⟩, finallyRelease s₅ id)

/-- Result of `get_chat_history` (chat_service.py lines 162-181). -/
inductive HistoryResult where
  | found (messages : List ChatMessage)
  | notFound
  deriving DecidableEq, Repr

/-- chat_service.py lines 162-181: return the in-memory history of an active
thread; otherwise load and deserialize the durable record if one exists;
otherwise raise. -/
def get_chat_history (s : ChatServiceState) (id : Str) : HistoryResult :=
  match getKey id s.active_chats with
  | some th => .found th.history
  | none =>
    match getKey id s.chat_history_dir with
    | some data => .found (data.map chatMessageOfDict)
    | none => .notFound

/-- chat_service.py lines 183-196: the `processing` flag, `false` for an
unknown thread. -/
def is_processing (s : ChatServiceState) (id : Str) : Bool :=
  match getKey id s.active_chats with
  | none => false
  | some th => th.processing

/-! ## Concrete states used to instantiate the theorems -/

/-- A concrete thread id. -/
def exId : Str := "t".data

/-- A concrete active thread with empty history. -/
def exThread : ChatThread := ⟨"a".data, 7, [], false⟩

/-- A service state with one active idle thread. -/
def exState : ChatServiceState := ⟨[(exId, exThread)], [(exId, false)], []⟩

/-- The same state with the thread's lock held by a turn in progress. -/
def exStateHeld : ChatServiceState :=
  ⟨[(exId, ⟨"a".data, 7, [], true⟩)], [(exId, true)], []⟩

/-- A durable record as left by a persisted turn. -/
def exRecord : List SerializedMessage :=
  [⟨"user".data, "q".data, 3⟩, ⟨"assistant".data, "ok".data, 4⟩]

/-- A post-restart state: no active threads, one durable record. -/
def exStateRestart : ChatServiceState := ⟨[], [], [(exId, exRecord)]⟩

/-! ## Lemmas about the dict model -/

@[simp] theorem getKey_setKey_self (k : Str) (v : α) (m : List (Str × α)) :
    getKey k (setKey k v m) = some v := by
  induction m with
  | nil => simp [getKey, setKey]
  | cons p rest ih =>
    obtain ⟨k₁, v₁⟩ := p
    by_cases h : k = k₁ <;> simp [getKey, setKey, h, ih]

theorem getKey_setKey_ne (k k₁ : Str) (v : α) (m : List (Str × α)) (h : k ≠ k₁) :
    getKey k (setKey k₁ v m) = getKey k m := by
  induction m with
  | nil => simp [getKey, setKey, h]
  | cons p rest ih =>
    obtain ⟨k₂, v₂⟩ := p
    by_cases h₂ : k₁ = k₂
    · subst h₂; simp [getKey, setKey, h]
    · by_cases h₃ : k = k₂ <;> simp [getKey, setKey, h₂, h₃, ih]

/-! ## Lemmas about `pySplit` and `streamChunks` -/

theorem pySplit_cons_ws (c : Char) (t : List Char) (h : c.isWhitespace = true) :
    pySplit (c :: t) = pySplit t := by
  cases t with
  | nil => simp [pySplit, h]
  | cons d rest => simp [pySplit, h]

/-- Every token produced by `pySplit` is nonempty and whitespace-free. -/
theorem pySplit_sound (s : List Char) :
    ∀ w ∈ pySplit s, w ≠ [] ∧ ∀ ch ∈ w, ch.isWhitespace = false := by
  induction s using pySplit.induct with
  | case1 => simp [pySplit]
  | case2 c h => simp [pySplit, h]
  | case3 c h =>
    intro w hw
    simp [pySplit, h] at hw
    subst hw
    refine ⟨by simp, ?_⟩
    intro ch hch
    simp at hch
    subst hch
    simpa using h
  | case4 c d rest h ih =>
    simpa [pySplit, h] using ih
  | case5 c d rest hc hd ih =>
    intro w hw
    simp only [pySplit] at hw
    simp [hc, hd] at hw
    rcases hw with rfl | hw
    · refine ⟨by simp, ?_⟩
      intro ch hch
      simp at hch
      subst hch
      simpa using hc
    · exact ih w hw
  | case6 c d rest hc hd heq ih =>
    intro w hw
    simp only [pySplit] at hw
    simp [hc, hd, heq] at hw
    subst hw
    refine ⟨by simp, ?_⟩
    intro ch hch
    simp at hch
    subst hch
    simpa using hc
  | case7 c d rest hc hd w₁ ws₁ heq ih =>
    intro w hw
    simp only [pySplit] at hw
    simp [hc, hd, heq] at hw
    rcases hw with rfl | hw
    · have h₁ := ih w₁ (by rw [heq]; simp)
      refine ⟨by simp, ?_⟩
      intro ch hch
      simp at hch
      rcases hch with rfl | hch
      · simpa using hc
      · exact h₁.2 ch hch
    · exact ih w (by rw [heq]; simp [hw])

/-- A leading run of whitespace is discarded by `pySplit`. -/
theorem pySplit_ws_append (sep t : List Char) (h : ∀ c ∈ sep, c.isWhitespace = true) :
    pySplit (sep ++ t) = pySplit t := by
  induction sep with
  | nil => rfl
  | cons c rest ih =>
    have hc : c.isWhitespace = true := h c (by simp)
    rw [List.cons_append, pySplit_cons_ws c _ hc]
    exact ih (fun x hx => h x (by simp [hx]))

/-- A nonempty whitespace-free word followed by nonempty whitespace is
recovered as one token by `pySplit`. -/
theorem pySplit_word_append (w : List Char) (hw : w ≠ [])
    (hwc : ∀ c ∈ w, c.isWhitespace = false) (sep t : List Char) (hs : sep ≠ [])
    (hsc : ∀ c ∈ sep, c.isWhitespace = true) :
    pySplit (w ++ (sep ++ t)) = w :: pySplit t := by
  match w with
  | [] => exact absurd rfl hw
  | [c] =>
    match sep with
    | [] => exact absurd rfl hs
    | e :: sep₁ =>
      have hc : c.isWhitespace = false := hwc c (by simp)
      have he : e.isWhitespace = true := hsc e (by simp)
      show pySplit (c :: (e :: (sep₁ ++ t))) = [c] :: pySplit t
      simp only [pySplit]
      simp only [hc, he, Bool.false_eq_true, if_false, if_true]
      rw [pySplit_cons_ws e _ he, pySplit_ws_append sep₁ t (fun x hx => hsc x (by simp [hx]))]
  | c :: c₂ :: w₂ =>
    have hc : c.isWhitespace = false := hwc c (by simp)
    have hc₂ : c₂.isWhitespace = false := hwc c₂ (by simp)
    have ihr := pySplit_word_append (c₂ :: w₂) (by simp)
      (fun x hx => hwc x (List.mem_cons_of_mem c hx)) sep t hs hsc
    simp only [List.cons_append] at ihr ⊢
    simp only [pySplit]
    simp only [hc, hc₂, Bool.false_eq_true, if_false]
    rw [ihr]

theorem streamChunks_cons₂_pos (w x : List Char) (xs : List (List Char))
    (he : endsSentence w = true) :
    streamChunks (w :: x :: xs) = (w ++ [' ']) :: ['\n'] :: streamChunks (x :: xs) := by
  simp [streamChunks, he]

theorem streamChunks_cons₂_neg (w x : List Char) (xs : List (List Char))
    (he : endsSentence w = false) :
    streamChunks (w :: x :: xs) = (w ++ [' ']) :: streamChunks (x :: xs) := by
  simp [streamChunks, he]

/-- Concatenating the streamer's chunks and re-splitting on whitespace
recovers exactly the original token list. -/
theorem pySplit_flatten_streamChunks (ws : List (List Char))
    (h : ∀ w ∈ ws, w ≠ [] ∧ ∀ c ∈ w, c.isWhitespace = false) :
    pySplit (streamChunks ws).flatten = ws := by
  match ws with
  | [] => rfl
  | [w] =>
    have hw := h w (by simp)
    show pySplit ((w ++ [' ']) ++ []) = [w]
    rw [List.append_assoc]
    rw [pySplit_word_append w hw.1 hw.2 [' '] [] (by simp) (by simp)]
    rfl
  | w :: x :: xs =>
    have hw := h w (by simp)
    have ih := pySplit_flatten_streamChunks (x :: xs) (fun y hy => h y (by simp [hy]))
    cases he : endsSentence w
    · rw [streamChunks_cons₂_neg w x xs he, List.flatten_cons, List.append_assoc]
      have hsep := pySplit_word_append w hw.1 hw.2 [' ']
        (streamChunks (x :: xs)).flatten (by simp) (by simp)
      rw [ih] at hsep
      exact hsep
    · rw [streamChunks_cons₂_pos w x xs he, List.flatten_cons, List.append_assoc]
      have hsep := pySplit_word_append w hw.1 hw.2 [' ', '\n']
        (streamChunks (x :: xs)).flatten (by simp) (by simp)
      rw [ih] at hsep
      exact hsep

theorem word_space_ne_newline (w : List Char) (hw : w ≠ []) : w ++ [' '] ≠ ['\n'] := by
  intro h
  have hl := congrArg List.length h
  simp at hl
  exact hw hl

/-- Dropping the line-break chunks leaves exactly one chunk per token,
in order, each being the token with a single trailing space. -/
theorem filter_streamChunks (ws : List (List Char))
    (h : ∀ w ∈ ws, w ≠ [] ∧ ∀ c ∈ w, c.isWhitespace = false) :
    (streamChunks ws).filter (fun c => ! (c == ['\n']))
      = ws.map (fun w => w ++ [' ']) := by
  match ws with
  | [] => rfl
  | [w] =>
    have hw := h w (by simp)
    have hne : ((w ++ [' '] : List Char) == ['\n']) = false :=
      beq_eq_false_iff_ne.mpr (word_space_ne_newline w hw.1)
    simp [streamChunks, List.filter, hne]
  | w :: x :: xs =>
    have hw := h w (by simp)
    have ih := filter_streamChunks (x :: xs) (fun y hy => h y (by simp [hy]))
    have hne : ((w ++ [' '] : List Char) == ['\n']) = false :=
      beq_eq_false_iff_ne.mpr (word_space_ne_newline w hw.1)
    cases he : endsSentence w
    · rw [streamChunks_cons₂_neg w x xs he]
      simp [List.filter, hne, ih]
    · rw [streamChunks_cons₂_pos w x xs he]
      simp [List.filter, hne, ih]

/-! ## Lemmas about the service operations -/

@[simp] theorem updThread_chat_locks (s : ChatServiceState) (id : Str)
    (f : ChatThread → ChatThread) : (updThread s id f).chat_locks = s.chat_locks := by
  unfold updThread
  cases getKey id s.active_chats <;> rfl

@[simp] theorem updThread_chat_history_dir (s : ChatServiceState) (id : Str)
    (f : ChatThread → ChatThread) :
    (updThread s id f).chat_history_dir = s.chat_history_dir := by
  unfold updThread
  cases getKey id s.active_chats <;> rfl

theorem getKey_updThread_self (s : ChatServiceState) (id : Str)
    (f : ChatThread → ChatThread) :
    getKey id (updThread s id f).active_chats = (getKey id s.active_chats).map f := by
  unfold updThread
  cases h : getKey id s.active_chats <;> simp [h]

@[simp] theorem save_chat_history_active_chats (s : ChatServiceState) (id : Str) :
    (save_chat_history s id).active_chats = s.active_chats := by
  unfold save_chat_history
  cases getKey id s.active_chats <;> rfl

@[simp] theorem save_chat_history_chat_locks (s : ChatServiceState) (id : Str) :
    (save_chat_history s id).chat_locks = s.chat_locks := by
  unfold save_chat_history
  cases getKey id s.active_chats <;> rfl

theorem getKey_save_chat_history (s : ChatServiceState) (id : Str) (th : ChatThread)
    (h : getKey id s.active_chats = some th) :
    getKey id (save_chat_history s id).chat_history_dir
      = some (th.history.map ChatMessage.dict) := by
  unfold save_chat_history
  simp [h]

theorem finallyRelease_locks (s : ChatServiceState) (id : Str) :
    getKey id (finallyRelease s id).chat_locks = some false := by
  unfold finallyRelease
  simp

theorem getKey_finallyRelease (s : ChatServiceState) (id : Str) :
    getKey id (finallyRelease s id).active_chats
      = (getKey id s.active_chats).map (fun th => { th with processing := false }) := by
  unfold finallyRelease
  simp [getKey_updThread_self]

@[simp] theorem finallyRelease_chat_history_dir (s : ChatServiceState) (id : Str) :
    (finallyRelease s id).chat_history_dir = s.chat_history_dir := by
  unfold finallyRelease
  simp

/-- Serialize/deserialize round-trip for one message. -/
@[simp] theorem dict_roundtrip (m : ChatMessage) :
    chatMessageOfDict (ChatMessage.dict m) = m := rfl

/-- Serialize/deserialize round-trip for a whole history. -/
@[simp] theorem map_dict_roundtrip (l : List ChatMessage) :
    (l.map ChatMessage.dict).map chatMessageOfDict = l := by
  induction l with
  | nil => rfl
  | cons m rest ih => simp [ih]

/-- Round-trip for a whole history, composed-map form. -/
@[simp] theorem map_comp_dict_roundtrip (l : List ChatMessage) :
    l.map (chatMessageOfDict ∘ ChatMessage.dict) = l := by
  induction l with
  | nil => rfl
  | cons m rest ih => simp [ih]

/-! ## Claim theorems -/

/-- C2: a `send_message` call on an existing thread whose lock is already
held yields exactly the single advisory busy chunk and terminates, leaving
the whole service state — in particular the thread's history, conversation
chain and `processing` flag — unchanged; no turn is executed. -/
theorem sendMessage_busy_rejects (s : ChatServiceState) (id message : Str)
    (t₁ t₂ : Nat) (gen : GenOutcome) (save : SaveOutcome) (th : ChatThread)
    (hact : getKey id s.active_chats = some th)
    (hheld : getKey id s.chat_locks = some true) :
    (send_message s id message t₁ t₂ gen save).1 = ⟨.busy, [busyMessage]⟩
    ∧ (send_message s id message t₁ t₂ gen save).2 = s := by
  simp [send_message, hact, hheld]

theorem sendMessage_busy_rejects_witness :
    getKey exId exStateHeld.active_chats = some ⟨"a".data, 7, [], true⟩
    ∧ getKey exId exStateHeld.chat_locks = some true
    ∧ (send_message exStateHeld exId "q".data 0 1 .err .ok).1
        = ⟨.busy, [busyMessage]⟩
    ∧ (send_message exStateHeld exId "q".data 0 1 .err .ok).2 = exStateHeld :=
  ⟨by decide, by decide,
   sendMessage_busy_rejects exStateHeld exId "q".data 0 1 .err .ok
     ⟨"a".data, 7, [], true⟩ (by decide) (by decide)⟩

/-- C6: when the index load for the asset fails (missing or unreadable
index), `create_chat` propagates the configuration error and registers no
new thread, so no thread id is returned. -/
theorem createChat_missing_index (s : ChatServiceState) (asset newId : Str) :
    (create_chat s asset newId .err).1 = .configError
    ∧ (create_chat s asset newId .err).2.active_chats = s.active_chats := by
  simp [create_chat]

/-- C9: a thread id that has a durable record on disk but is absent from the
in-memory registry is rejected by `send_message` with the not-found error,
with the state untouched (no rehydration from disk), even though
`get_chat_history` succeeds for the same id. -/
theorem sendMessage_no_rehydration (s : ChatServiceState) (id message : Str)
    (t₁ t₂ : Nat) (gen : GenOutcome) (save : SaveOutcome)
    (d : List SerializedMessage)
    (hact : getKey id s.active_chats = none)
    (hdisk : getKey id s.chat_history_dir = some d) :
    (send_message s id message t₁ t₂ gen save).1 = ⟨.notFound, []⟩
    ∧ (send_message s id message t₁ t₂ gen save).2 = s
    ∧ get_chat_history s id = .found (d.map chatMessageOfDict) := by
  simp [send_message, get_chat_history, hact, hdisk]

theorem sendMessage_no_rehydration_witness :
    getKey exId exStateRestart.active_chats = none
    ∧ getKey exId exStateRestart.chat_history_dir = some exRecord
    ∧ (send_message exStateRestart exId "q".data 0 1 .err .ok).1
        = ⟨.notFound, []⟩
    ∧ (send_message exStateRestart exId "q".data 0 1 .err .ok).2 = exStateRestart
    ∧ get_chat_history exStateRestart exId
        = .found (exRecord.map chatMessageOfDict) :=
  ⟨by decide, by decide,
   sendMessage_no_rehydration exStateRestart exId "q".data 0 1 .err .ok
     exRecord (by decide) (by decide)⟩

/-- C1: whenever `send_message` runs on an existing thread and acquires the
thread's lock (the lock was not already held), then on every exit path —
generation failure, persistence failure, or normal completion — the final
state has the thread's `processing` flag false and the lock released. -/
theorem sendMessage_always_releases (s : ChatServiceState) (id message : Str)
    (t₁ t₂ : Nat) (gen : GenOutcome) (save : SaveOutcome) (th : ChatThread)
    (hact : getKey id s.active_chats = some th)
    (hheld : (getKey id s.chat_locks).getD false = false) :
    getKey id (send_message s id message t₁ t₂ gen save).2.chat_locks = some false
    ∧ (getKey id (send_message s id message t₁ t₂ gen save).2.active_chats).map
        ChatThread.processing = some false := by
  cases hl : getKey id s.chat_locks with
  | none =>
    cases gen with
    | err =>
      simp [send_message, hact, hl, finallyRelease_locks, getKey_finallyRelease,
            getKey_updThread_self]
    | ok ans =>
      cases save <;>
        simp [send_message, hact, hl, finallyRelease_locks, getKey_finallyRelease,
              getKey_updThread_self]
  | some b =>
    have hb : b = false := by simpa [hl] using hheld
    subst hb
    cases gen with
    | err =>
      simp [send_message, hact, hl, finallyRelease_locks, getKey_finallyRelease,
            getKey_updThread_self]
    | ok ans =>
      cases save <;>
        simp [send_message, hact, hl, finallyRelease_locks, getKey_finallyRelease,
              getKey_updThread_self]

theorem sendMessage_always_releases_witness :
    getKey exId exState.active_chats = some exThread
    ∧ (getKey exId exState.chat_locks).getD false = false
    ∧ (getKey exId (send_message exState exId "q".data 0 1 .err .ok).2.chat_locks
          = some false
       ∧ (getKey exId
            (send_message exState exId "q".data 0 1 .err .ok).2.active_chats).map
            ChatThread.processing = some false) :=
  ⟨by decide, by decide,
   sendMessage_always_releases exState exId "q".data 0 1 .err .ok exThread
     (by decide) (by decide)⟩

/-- C3: a successful turn appends exactly a user message carrying the
caller's text and instant `t₁` and then an assistant message carrying the
generated answer and instant `t₂` to the end of the thread's history,
leaving all prior entries in place; if the prior history is
timestamp-sorted, bounded by `t₁`, and the clock is monotone (`t₁ ≤ t₂`),
the grown history is timestamp-sorted as well. -/
theorem sendMessage_success_appends_pair (s : ChatServiceState) (id message : Str)
    (t₁ t₂ : Nat) (ans : Str) (th : ChatThread)
    (hact : getKey id s.active_chats = some th)
    (hheld : (getKey id s.chat_locks).getD false = false)
    (hprior : ∀ m ∈ th.history, m.timestamp ≤ t₁) (hmono : t₁ ≤ t₂)
    (hsorted : th.history.Pairwise (fun (m₁ m₂ : ChatMessage) => m₁.timestamp ≤ m₂.timestamp)) :
    (getKey id (send_message s id message t₁ t₂ (.ok ans) .ok).2.active_chats).map
        ChatThread.history
      = some (th.history
          ++ [(ChatMessage.mk "user".data message t₁), (ChatMessage.mk "assistant".data ans t₂)])
    ∧ (th.history
          ++ [(ChatMessage.mk "user".data message t₁), (ChatMessage.mk "assistant".data ans t₂)]).Pairwise
        (fun (m₁ m₂ : ChatMessage) => m₁.timestamp ≤ m₂.timestamp) := by
  constructor
  · cases hl : getKey id s.chat_locks with
    | none =>
      simp [send_message, hact, hl, getKey_finallyRelease, getKey_updThread_self]
    | some b =>
      have hb : b = false := by simpa [hl] using hheld
      subst hb
      simp [send_message, hact, hl, getKey_finallyRelease, getKey_updThread_self]
  · rw [List.pairwise_append]
    refine ⟨hsorted, ?_, ?_⟩
    · simp [hmono]
    · intro m hm m₂ hm₂
      have h₁ := hprior m hm
      simp at hm₂
      rcases hm₂ with rfl | rfl
      · exact h₁
      · exact le_trans h₁ hmono

theorem sendMessage_success_appends_pair_witness :
    getKey exId exState.active_chats = some exThread
    ∧ (getKey exId exState.chat_locks).getD false = false
    ∧ ((getKey exId
          (send_message exState exId "q".data 3 4 (.ok "fine".data) .ok).2.active_chats).map
          ChatThread.history
        = some (exThread.history
            ++ [(ChatMessage.mk "user".data "q".data 3), (ChatMessage.mk "assistant".data "fine".data 4)])
       ∧ (exThread.history
            ++ [(ChatMessage.mk "user".data "q".data 3), (ChatMessage.mk "assistant".data "fine".data 4)]).Pairwise
           (fun (m₁ m₂ : ChatMessage) => m₁.timestamp ≤ m₂.timestamp)) :=
  ⟨by decide, by decide,
   sendMessage_success_appends_pair exState exId "q".data 3 4 "fine".data exThread
     (by decide) (by decide) (by simp [exThread]) (by decide) (by simp [exThread])⟩

/-- C7: when the generation call raises after the lock was acquired, the
already-appended user message stays in the in-memory history (no rollback),
the failure propagates to the caller with no chunks yielded, and the
`processing` flag is cleared and the lock released. -/
theorem sendMessage_genFailure_keeps_user (s : ChatServiceState) (id message : Str)
    (t₁ t₂ : Nat) (save : SaveOutcome) (th : ChatThread)
    (hact : getKey id s.active_chats = some th)
    (hheld : (getKey id s.chat_locks).getD false = false) :
    (send_message s id message t₁ t₂ .err save).1 = ⟨.genRaised, []⟩
    ∧ (getKey id (send_message s id message t₁ t₂ .err save).2.active_chats).map
        ChatThread.history = some (th.history ++ [(ChatMessage.mk "user".data message t₁)])
    ∧ (getKey id (send_message s id message t₁ t₂ .err save).2.active_chats).map
        ChatThread.processing = some false
    ∧ getKey id (send_message s id message t₁ t₂ .err save).2.chat_locks
        = some false := by
  cases hl : getKey id s.chat_locks with
  | none =>
    simp [send_message, hact, hl, finallyRelease_locks, getKey_finallyRelease,
          getKey_updThread_self]
  | some b =>
    have hb : b = false := by simpa [hl] using hheld
    subst hb
    simp [send_message, hact, hl, finallyRelease_locks, getKey_finallyRelease,
          getKey_updThread_self]

theorem sendMessage_genFailure_keeps_user_witness :
    getKey exId exState.active_chats = some exThread
    ∧ (getKey exId exState.chat_locks).getD false = false
    ∧ ((send_message exState exId "q".data 0 1 .err .ok).1 = ⟨.genRaised, []⟩
       ∧ (getKey exId
            (send_message exState exId "q".data 0 1 .err .ok).2.active_chats).map
            ChatThread.history
          = some (exThread.history ++ [(ChatMessage.mk "user".data "q".data 0)])
       ∧ (getKey exId
            (send_message exState exId "q".data 0 1 .err .ok).2.active_chats).map
            ChatThread.processing = some false
       ∧ getKey exId (send_message exState exId "q".data 0 1 .err .ok).2.chat_locks
          = some false) :=
  ⟨by decide, by decide,
   sendMessage_genFailure_keeps_user exState exId "q".data 0 1 .ok exThread
     (by decide) (by decide)⟩

/-- C4: the streaming presenter emits, besides the line-break chunks,
exactly one chunk per whitespace-separated token of the answer, in order,
each chunk being the token followed by a single trailing space;
consequently the concatenation of all emitted chunks, whitespace-normalized,
equals the whitespace-normalized answer text. -/
theorem streaming_normalizes (ans : Str) :
    (streamChunks (pySplit ans)).filter (fun c => ! (c == ['\n']))
        = (pySplit ans).map (fun w => w ++ [' '])
    ∧ pySplit (streamChunks (pySplit ans)).flatten = pySplit ans :=
  ⟨filter_streamChunks (pySplit ans) (pySplit_sound ans),
   pySplit_flatten_streamChunks (pySplit ans) (pySplit_sound ans)⟩

/-- C5 counterexample: on a concrete idle thread, a turn whose generation
succeeds with answer "Hello world." but whose durable write fails — after
`open(history_path, "w")` has truncated the record — exits with the
propagated persistence error and yields zero chunks to the caller, although
the answer's chunk sequence is nonempty — the caller does not receive the
streamed answer. -/
theorem sendMessage_persistFailure_cex :
    (send_message exState exId "q".data 0 1 (.ok "Hello world.".data)
        (.err (some []))).1
      = ⟨.saveRaised, []⟩
    ∧ streamChunks (pySplit "Hello world.".data) ≠ [] := by decide

/-- C5 (amended): when the durable write fails after a successful
generation — whatever state the failed write left the durable record in —
the failure propagates to the caller, which receives no answer chunks;
both new messages remain in the in-memory history, and `processing` is
cleared and the lock released. -/
theorem sendMessage_persistFailure_propagates (s : ChatServiceState)
    (id message : Str) (t₁ t₂ : Nat) (ans : Str)
    (leftover : Option (List SerializedMessage)) (th : ChatThread)
    (hact : getKey id s.active_chats = some th)
    (hheld : (getKey id s.chat_locks).getD false = false) :
    (send_message s id message t₁ t₂ (.ok ans) (.err leftover)).1
      = ⟨.saveRaised, []⟩
    ∧ (getKey id
        (send_message s id message t₁ t₂ (.ok ans) (.err leftover)).2.active_chats).map
        ChatThread.history
      = some (th.history ++ [(ChatMessage.mk "user".data message t₁),
          (ChatMessage.mk "assistant".data ans t₂)])
    ∧ (getKey id
        (send_message s id message t₁ t₂ (.ok ans) (.err leftover)).2.active_chats).map
        ChatThread.processing = some false
    ∧ getKey id
        (send_message s id message t₁ t₂ (.ok ans) (.err leftover)).2.chat_locks
      = some false := by
  cases hl : getKey id s.chat_locks with
  | none =>
    simp [send_message, hact, hl, finallyRelease_locks, getKey_finallyRelease,
          getKey_updThread_self]
  | some b =>
    have hb : b = false := by simpa [hl] using hheld
    subst hb
    simp [send_message, hact, hl, finallyRelease_locks, getKey_finallyRelease,
          getKey_updThread_self]

theorem sendMessage_persistFailure_propagates_witness :
    getKey exId exState.active_chats = some exThread
    ∧ (getKey exId exState.chat_locks).getD false = false
    ∧ ((send_message exState exId "q".data 0 1 (.ok "Hi.".data)
          (.err (some []))).1 = ⟨.saveRaised, []⟩
       ∧ (getKey exId
            (send_message exState exId "q".data 0 1 (.ok "Hi.".data)
              (.err (some []))).2.active_chats).map
            ChatThread.history
          = some (exThread.history ++ [(ChatMessage.mk "user".data "q".data 0),
              (ChatMessage.mk "assistant".data "Hi.".data 1)])
       ∧ (getKey exId
            (send_message exState exId "q".data 0 1 (.ok "Hi.".data)
              (.err (some []))).2.active_chats).map
            ChatThread.processing = some false
       ∧ getKey exId
            (send_message exState exId "q".data 0 1 (.ok "Hi.".data)
              (.err (some []))).2.chat_locks
          = some false) :=
  ⟨by decide, by decide,
   sendMessage_persistFailure_propagates exState exId "q".data 0 1 "Hi.".data
     (some []) exThread (by decide) (by decide)⟩

/-- C8: after a successful persisted turn, a freshly restarted service (no
active threads or locks, same durable directory) reconstructs from disk,
via `get_chat_history`, exactly the message sequence that was in memory
when the turn persisted it — same order, role, content and timestamp. -/
theorem history_durable_roundtrip (s : ChatServiceState) (id message : Str)
    (t₁ t₂ : Nat) (ans : Str) (th : ChatThread)
    (hact : getKey id s.active_chats = some th)
    (hheld : (getKey id s.chat_locks).getD false = false) :
    (getKey id
        (send_message s id message t₁ t₂ (.ok ans) .ok).2.active_chats).map
        ChatThread.history
      = some (th.history ++ [(ChatMessage.mk "user".data message t₁),
          (ChatMessage.mk "assistant".data ans t₂)])
    ∧ get_chat_history
        (ChatServiceState.mk [] []
          (send_message s id message t₁ t₂ (.ok ans) .ok).2.chat_history_dir) id
      = .found (th.history ++ [(ChatMessage.mk "user".data message t₁),
          (ChatMessage.mk "assistant".data ans t₂)]) := by
  cases hl : getKey id s.chat_locks with
  | none =>
    simp [send_message, get_chat_history, save_chat_history, getKey, hact, hl,
          getKey_finallyRelease, getKey_updThread_self, List.map_map,
          Function.comp]
  | some b =>
    have hb : b = false := by simpa [hl] using hheld
    subst hb
    simp [send_message, get_chat_history, save_chat_history, getKey, hact, hl,
          getKey_finallyRelease, getKey_updThread_self, List.map_map,
          Function.comp]

theorem history_durable_roundtrip_witness :
    getKey exId exState.active_chats = some exThread
    ∧ (getKey exId exState.chat_locks).getD false = false
    ∧ ((getKey exId
          (send_message exState exId "q".data 3 4 (.ok "ok".data) .ok).2.active_chats).map
          ChatThread.history
        = some (exThread.history ++ [(ChatMessage.mk "user".data "q".data 3),
            (ChatMessage.mk "assistant".data "ok".data 4)])
       ∧ get_chat_history
          (ChatServiceState.mk [] []
            (send_message exState exId "q".data 3 4 (.ok "ok".data) .ok).2.chat_history_dir)
          exId
        = .found (exThread.history ++ [(ChatMessage.mk "user".data "q".data 3),
            (ChatMessage.mk "assistant".data "ok".data 4)])) :=
  ⟨by decide, by decide,
   history_durable_roundtrip exState exId "q".data 3 4 "ok".data exThread
     (by decide) (by decide)⟩

/-- C10: a successful turn whose generated answer is empty or
whitespace-only streams zero chunks to the caller, yet still appends an
assistant message carrying that answer to the history and persists the
grown history to the durable record. -/
theorem sendMessage_whitespace_answer (s : ChatServiceState) (id message : Str)
    (t₁ t₂ : Nat) (ans : Str) (th : ChatThread)
    (hact : getKey id s.active_chats = some th)
    (hheld : (getKey id s.chat_locks).getD false = false)
    (hws : ∀ c ∈ ans, c.isWhitespace = true) :
    (send_message s id message t₁ t₂ (.ok ans) .ok).1 = ⟨.completed, []⟩
    ∧ (getKey id
        (send_message s id message t₁ t₂ (.ok ans) .ok).2.active_chats).map
        ChatThread.history
      = some (th.history ++ [(ChatMessage.mk "user".data message t₁),
          (ChatMessage.mk "assistant".data ans t₂)])
    ∧ getKey id (send_message s id message t₁ t₂ (.ok ans) .ok).2.chat_history_dir
      = some ((th.history ++ [(ChatMessage.mk "user".data message t₁),
          (ChatMessage.mk "assistant".data ans t₂)]).map ChatMessage.dict) := by
  have hnil : pySplit ans = [] := by simpa using pySplit_ws_append ans [] hws
  cases hl : getKey id s.chat_locks with
  | none =>
    simp [send_message, save_chat_history, hact, hl, hnil, streamChunks,
          getKey_finallyRelease, getKey_updThread_self]
  | some b =>
    have hb : b = false := by simpa [hl] using hheld
    subst hb
    simp [send_message, save_chat_history, hact, hl, hnil, streamChunks,
          getKey_finallyRelease, getKey_updThread_self]

theorem sendMessage_whitespace_answer_witness :
    getKey exId exState.active_chats = some exThread
    ∧ (getKey exId exState.chat_locks).getD false = false
    ∧ (∀ c ∈ (" ".data : Str), c.isWhitespace = true)
    ∧ ((send_message exState exId "q".data 0 1 (.ok " ".data) .ok).1
        = ⟨.completed, []⟩
       ∧ (getKey exId
            (send_message exState exId "q".data 0 1 (.ok " ".data) .ok).2.active_chats).map
            ChatThread.history
          = some (exThread.history ++ [(ChatMessage.mk "user".data "q".data 0),
              (ChatMessage.mk "assistant".data " ".data 1)])
       ∧ getKey exId
            (send_message exState exId "q".data 0 1 (.ok " ".data) .ok).2.chat_history_dir
          = some ((exThread.history ++ [(ChatMessage.mk "user".data "q".data 0),
              (ChatMessage.mk "assistant".data " ".data 1)]).map ChatMessage.dict)) :=
  ⟨by decide, by decide, by decide,
   sendMessage_whitespace_answer exState exId "q".data 0 1 " ".data exThread
     (by decide) (by decide) (by decide)⟩

end RagAgent
